import Mathlib

/-!
Shallow embedding of `olive/strategy/search_results.py` (class `SearchResults`)
from the Olive repository, together with proofs about its query operations.

Python dictionaries are embedded as association lists in insertion order
(`Dict` below): looking up a key returns the first binding, and assigning to an
existing key replaces the binding in place while assigning a fresh key appends
it at the end — exactly the observable ordered-dict semantics the source relies
on when it iterates `self.results`.

Fallible Python code (KeyError, TypeError, AssertionError) is embedded in the
`Except PyError` monad.  Numeric metric values are embedded as `Int`: the component only negates
(multiplies by plus or minus one) and order-compares metric values, so any
linearly ordered abelian group embeds the float arithmetic it performs
exactly, and integer values keep every concrete computation kernel-reducible.
-/

/-- Python exception kinds raised by the code paths embedded here. -/
inductive PyError where
  | keyError
  | typeError
  | assertionError
deriving DecidableEq

/-- Scalar parameter values appearing inside a search-point configuration
(`Dict[str, Dict[str, Any]]` in the source; the values are opaque scalars). -/
inductive SPVal where
  | int (n : Int)
  | str (s : String)
  | bool (b : Bool)
deriving DecidableEq

/-- A Python `dict` in insertion order. -/
abbrev Dict (α β : Type) := List (α × β)

/-- `d[k]` as an `Option`: the first binding of `k`. -/
def dictLookup {α β : Type} [DecidableEq α] : Dict α β → α → Option β
  | [], _ => none
  | (k, v) :: rest, key => if k = key then some v else dictLookup rest key

/-- Replace every binding of `k` by `(k, v)`, keeping its position. -/
def dictReplace {α β : Type} [DecidableEq α] (k : α) (v : β) : Dict α β → Dict α β
  | [] => []
  | (k₀, v₀) :: rest =>
    if k₀ = k then (k, v) :: dictReplace k v rest else (k₀, v₀) :: dictReplace k v rest

/-- `d[k] = v`: replace the binding in place when `k` is present (position is
preserved, as for a Python dict), otherwise append the new binding at the end. -/
def dictSet {α β : Type} [DecidableEq α] (d : Dict α β) (k : α) (v : β) : Dict α β :=
  if (dictLookup d k).isSome then dictReplace k v d else d ++ [(k, v)]

/-- Number of bindings of key `k` in `d`. -/
def countKey {α β : Type} [DecidableEq α] (d : Dict α β) (k : α) : Nat :=
  (d.filter (fun p => p.1 = k)).length

/-- A Python list comprehension / loop that may raise: evaluate `f` on the
elements left to right, propagating the first exception. -/
def exceptMap {α β : Type} (f : α → Except PyError β) : List α → Except PyError (List β)
  | [] => .ok []
  | a :: rest =>
    match f a with
    | .error e => .error e
    | .ok b =>
      match exceptMap f rest with
      | .error e => .error e
      | .ok bs => .ok (b :: bs)

/-- A Python `d[k]` read: the value when the key is present, `KeyError`
otherwise. -/
def lookupOrKeyError {α β : Type} [DecidableEq α] (d : Dict α β) (k : α) :
    Except PyError β :=
  match dictLookup d k with
  | none => .error .keyError
  | some v => .ok v

/-- An inner configuration dict: parameter name to scalar value. -/
abbrev ParamDict := Dict String SPVal

/-- A search point: pass name to parameter dict
(the `search_point` argument of `SearchResults.record`). -/
abbrev SPDict := Dict String ParamDict

/-- A trial result: objective name to numeric value
(the `result` argument of `SearchResults.record`). -/
abbrev ResDict := Dict String Int

/-- Modelled from the spec: `hash_dict` (imported from `olive.common.utils`,
whose source is not under `src/`).  Spec section 4.1 requires a deterministic
string fingerprint of the nested configuration mapping obtained from a
canonical serialization.  We model the hash as an injective serialization of
the configuration itself (a collision-free hash), which is faithful to every
property the spec demands: determinism, and structurally equal configurations
receiving equal fingerprints. -/
def serializeSPVal : SPVal → String
  | .int n => "i" ++ toString n
  | .str s => "s" ++ toString s.length ++ ":" ++ s
  | .bool b => "b" ++ toString b

/-- Serialization of an inner parameter dict, part of `hash_dict`. -/
def serializeParams : ParamDict → String
  | [] => ""
  | (k, v) :: rest =>
    "p" ++ toString k.length ++ ":" ++ k ++ "=" ++ serializeSPVal v ++ ";" ++ serializeParams rest

/-- Modelled from the spec: the fingerprint function (see `serializeSPVal`). -/
def hash_dict : SPDict → String
  | [] => ""
  | (k, v) :: rest =>
    "n" ++ toString k.length ++ ":" ++ k ++ "(" ++ serializeParams v ++ ")" ++ hash_dict rest

/-- One objective's metadata: the entries of `objective_dict` in the source are
dicts holding a `"higher_is_better"` flag and a `"goal"` that may be `None`. -/
structure ObjectiveSpec where
  higher_is_better : Bool
  goal : Option Int
deriving DecidableEq

/-- The state of a `SearchResults` object.

The source's `__init__` stores `objective_dict` and `init_model_history` and
derives `self.objectives`, `self.higher_is_betters`, `self.obj_mul` and
`self.goals` from `objective_dict`; those derived attributes are pure functions
of `objective_dict`, are never reassigned, and are embedded below as functions
(`SearchResults.objectives`, `SearchResults.objMul`, `SearchResults.goals`).
The three mutable maps start empty and are filled by `record`. -/
structure SearchResults where
  objective_dict : Dict String ObjectiveSpec
  init_model_history : Option String
  search_point_hash_table : Dict String SPDict
  results : Dict String ResDict
  model_ids : Dict String (List String)
deriving DecidableEq

namespace SearchResults

/-- `SearchResults(objective_dict, init_model_history)`: the constructor, with
the three result maps empty. -/
def init (objective_dict : Dict String ObjectiveSpec) (imh : Option String) : SearchResults :=
  { objective_dict := objective_dict
    init_model_history := imh
    search_point_hash_table := []
    results := []
    model_ids := [] }

/-- `self.objectives = list(objective_dict.keys())`. -/
def objectives (s : SearchResults) : List String :=
  s.objective_dict.map (fun p => p.1)

/-- `self.obj_mul[obj]`: `1` if the objective is higher-is-better else `-1`.
Every call site first ensures `obj` is a configured objective, so the `none`
branch is unreachable there; it defaults to `1`. -/
def objMul (s : SearchResults) (obj : String) : Int :=
  match dictLookup s.objective_dict obj with
  | some o => if o.higher_is_better then 1 else -1
  | none => 1

/-- `self.goals`: the configured objectives with a non-`None` goal, in
configuration order. -/
def goals (s : SearchResults) : Dict String Int :=
  s.objective_dict.filterMap (fun p => (p.2.goal).map (fun g => (p.1, g)))

/-- `SearchResults.record` (source lines 47-56).  `search_point` and `result`
are stored as deep copies (embedded as plain values — a deep copy shares no
mutable state with the caller); `model_ids` is stored as passed.  The aliasing
consequence of the missing copy on line 56 is modelled separately by
`recordObj` below; at the value level all three are the values passed. -/
def record (s : SearchResults) (search_point : SPDict) (result : ResDict)
    (model_ids : List String) : SearchResults :=
  let h := hash_dict search_point
  { s with
    search_point_hash_table := dictSet s.search_point_hash_table h search_point
    results := dictSet s.results h result
    model_ids := dictSet s.model_ids h model_ids }

/-- The loop of `check_goals` (source lines 110-113): scan the configured
goals in order; a goal objective missing from `result` raises `KeyError`, a
failing value returns `False`, and the loop falls through to `True`. -/
def goalsLoop (s : SearchResults) (result : ResDict) : Dict String Int → Except PyError Bool
  | [] => .ok true
  | (obj, goal) :: rest =>
    match dictLookup result obj with
    | none => .error .keyError
    | some v =>
      if s.objMul obj * v < s.objMul obj * goal then .ok false
      else goalsLoop s result rest

/-- `SearchResults.check_goals` (source lines 103-113): `False` when no goals
are configured, otherwise the scan `goalsLoop`. -/
def check_goals (s : SearchResults) (result : ResDict) : Except PyError Bool :=
  if s.goals = [] then .ok false
  else goalsLoop s result s.goals

/-- The shared prologue of `sort_search_points` (lines 119-122) and
`_get_results_list` (lines 147-150): default to all configured objectives, and
`assert set(objectives).issubset(self.objectives)` for an explicit argument. -/
def resolveObjectives (s : SearchResults) : Option (List String) → Except PyError (List String)
  | none => .ok s.objectives
  | some objs =>
    if objs.all (fun o => o ∈ s.objectives) then .ok objs else .error .assertionError

/-- The row built on source line 161:
`[self.obj_mul[obj] * result[obj] for obj in objectives]`; a selected objective
missing from the (non-empty) result raises `KeyError`. -/
def entryRow (s : SearchResults) (objectives : List String) (result : ResDict) :
    Except PyError (List Int) :=
  exceptMap
    (fun obj =>
      match dictLookup result obj with
      | none => .error .keyError
      | some v => .ok (s.objMul obj * v))
    objectives

/-- The loop of `_get_results_list` (source lines 154-161) over `self.results`
in insertion order, producing the parallel `(row, hash)` pairs: entries with an
empty result are skipped; with `apply_goals`, entries failing `check_goals` are
skipped (and `check_goals` may raise); then the direction-adjusted row is
built. -/
def resultsEntries (s : SearchResults) (objectives : List String) (apply_goals : Bool) :
    Dict String ResDict → Except PyError (List (List Int × String))
  | [] => .ok []
  | (h, result) :: rest =>
    if result = [] then resultsEntries s objectives apply_goals rest
    else
      match (if apply_goals then s.check_goals result else .ok true) with
      | .error e => .error e
      | .ok keep =>
        if keep then
          match entryRow s objectives result with
          | .error e => .error e
          | .ok row =>
            match resultsEntries s objectives apply_goals rest with
            | .error e => .error e
            | .ok tail => .ok ((row, h) :: tail)
        else resultsEntries s objectives apply_goals rest

/-- `SearchResults._get_results_list` (source lines 141-163): returns the pair
`(results, search_point_hashes)` — the direction-adjusted rows first, the
hashes second. -/
def get_results_list (s : SearchResults) (objectivesArg : Option (List String))
    (apply_goals : Bool) : Except PyError (List (List Int) × List String) := do
  let objs ← s.resolveObjectives objectivesArg
  let entries ← resultsEntries s objs apply_goals s.results
  pure (entries.map (fun p => p.1), entries.map (fun p => p.2))

/-- `SearchResults.get_pareto_frontier` (source lines 58-70).

Source line 65 is `search_point_hashes, results = self._get_results_list(...)`,
but `_get_results_list` returns the tuple `(results, search_point_hashes)` —
the unpacking is swapped, so the local variable `results` holds the hash
strings and `search_point_hashes` holds the numeric rows.  Consequently:

* when the filtered set is empty both components are `[]` and the swap is
  value-irrelevant: `np.array([])` is the empty array, for which the frontier
  finder's contract (spec section 4.2, the finder's own source is not under
  `src/`) returns the empty index set, and the final comprehension yields `[]`;
* when the filtered set is non-empty, `find_pareto_frontier_points` receives a
  one-dimensional array of hash strings instead of a matrix of numeric
  vectors — outside its contract — and every index `i` it could produce is
  consumed as `self.model_ids[search_point_hashes[i]]`, a dict lookup keyed by
  a Python `list` of floats, which is unhashable: the call raises `TypeError`
  and no execution path returns a model id. -/
def get_pareto_frontier (s : SearchResults) (objectivesArg : Option (List String))
    (apply_goals : Bool) : Except PyError (List String) := do
  let pair ← get_results_list s objectivesArg apply_goals
  if pair.2 = [] then pure [] else .error .typeError

end SearchResults

/-- Lexicographic `Bool`-valued comparison on rational vectors, elementwise by
`<` with ties passed to the remaining components. -/
def lexLe : List Int → List Int → Bool
  | [], _ => true
  | _ :: _, [] => false
  | a :: as, b :: bs => if a < b then true else if b < a then false else lexLe as bs

/-- The ordering used to embed `np.lexsort(results.T)` on source line 131:
`np.lexsort` sorts by the last key (the last selected objective's column) as
the primary key, earlier columns breaking ties — that is, lexicographically on
the reversed row — and is stable. -/
def pairKeyLe (p q : List Int × String) : Prop :=
  lexLe p.1.reverse q.1.reverse = true

instance : DecidableRel pairKeyLe := fun _ _ => decEq _ _

namespace SearchResults

/-- Lines 130-132 of the source: multiply the rows (already adjusted on line
161) by the direction multipliers once more, `np.lexsort` them — stable, last
column as the primary key, i.e. the stable insertion sort under `pairKeyLe` on
the row-hash pairs — and read off the hashes in sorted order. -/
def sortedHashesOf (s : SearchResults) (objs : List String) (rows : List (List Int))
    (hashes : List String) : List String :=
  (List.insertionSort pairKeyLe
    ((rows.map (fun row => List.zipWith (fun obj v => s.objMul obj * v) objs row)).zip
      hashes)).map (fun p => p.2)

/-- Source lines 125-139: the tail of `sort_search_points` operating on the
`(results, search_point_hashes)` pair obtained from `_get_results_list` on
line 124: the empty-sentinel check (lines 125-126), the double adjustment and
stable lexsort (`sortedHashesOf`, lines 130-132), and the three lookups of the
sorted hashes (lines 135-138). -/
def sortResultsTail (s : SearchResults) (objs : List String)
    (pair : List (List Int) × List String) :
    Except PyError (Option (List (List String) × List SPDict × List ResDict)) :=
  if pair.1 = [] then pure none
  else do
    let sortedHashes := sortedHashesOf s objs pair.1 pair.2
    let sorted_model_ids ← exceptMap (lookupOrKeyError s.model_ids) sortedHashes
    let sorted_results ← exceptMap (lookupOrKeyError s.results) sortedHashes
    let sorted_search_points ← exceptMap (lookupOrKeyError s.search_point_hash_table)
      sortedHashes
    pure (some (sorted_model_ids, sorted_search_points, sorted_results))

/-- `SearchResults.sort_search_points` (source lines 115-139): resolve and
assert the objectives (lines 119-122), fetch the filtered pair (line 124), and
run the sorting tail `sortResultsTail` (lines 125-139).  The
`(None, None, None)` sentinel is embedded as `none`; a successful sort returns
`some (sorted_model_ids, sorted_search_points, sorted_results)`. -/
def sort_search_points (s : SearchResults) (objectivesArg : Option (List String))
    (apply_goals : Bool) :
    Except PyError (Option (List (List String) × List SPDict × List ResDict)) := do
  let objs ← s.resolveObjectives objectivesArg
  let pair ← get_results_list s (some objs) apply_goals
  sortResultsTail s objs pair

/-- `SearchResults.get_results_df` (source lines 72-101).  Its first statement
is `self.get_pareto_frontier(apply_constraints=False)`, but `get_pareto_frontier`
has no parameter named `apply_constraints`, so every call raises `TypeError`
before any row is built (the body also references `self.metrics` and
`self.check_constraints`, attributes the class never defines).  The embedded
semantics of the method is therefore the immediate `TypeError`. -/
def get_results_df (s : SearchResults) (show_search_points : Bool) :
    Except PyError (List (List String)) :=
  .error .typeError

/-- The dict returned by `SearchResults.to_json` (source lines 165-175). -/
structure PersistedForm where
  objective_dict : Dict String ObjectiveSpec
  init_model_history : Option String
  results : Dict String ResDict
  model_ids : Dict String (List String)
  search_point_hash_table : Dict String SPDict
deriving DecidableEq

/-- `SearchResults.to_json` (source lines 165-175). -/
def to_json (s : SearchResults) : PersistedForm :=
  { objective_dict := s.objective_dict
    init_model_history := s.init_model_history
    results := s.results
    model_ids := s.model_ids
    search_point_hash_table := s.search_point_hash_table }

/-- `SearchResults.from_json` (source lines 177-186): construct via the
constructor on the persisted `objective_dict` and `init_model_history`, then
assign the three maps from the persisted form. -/
def from_json (j : PersistedForm) : SearchResults :=
  let s := init j.objective_dict j.init_model_history
  { s with
    search_point_hash_table := j.search_point_hash_table
    results := j.results
    model_ids := j.model_ids }

end SearchResults

/-!
Object-level model of `record`'s copying behaviour.

To state what `deepcopy` buys (and what its absence on source line 56 costs),
the caller's three argument objects are modelled as references into a heap of
mutable Python objects.  `deepcopy(search_point)` and `deepcopy(result)` on
lines 54-55 store the *value* found at the reference at call time — no later
heap mutation can reach it.  Line 56 stores the `model_ids` argument itself,
i.e. the reference: dereferencing happens at every later read, through the
heap current at that time.
-/

/-- The heap of caller-side mutable objects, one store per argument kind. -/
structure Heap where
  spObj : Nat → SPDict
  resObj : Nat → ResDict
  idsObj : Nat → List String

/-- Replace the artifact-id list object at reference `r` (an in-place
mutation of the caller's list, e.g. `ids.append(...)`). -/
def Heap.setIds (h : Heap) (r : Nat) (v : List String) : Heap :=
  { h with idsObj := fun n => if n = r then v else h.idsObj n }

/-- Replace the result object at reference `r`. -/
def Heap.setRes (h : Heap) (r : Nat) (v : ResDict) : Heap :=
  { h with resObj := fun n => if n = r then v else h.resObj n }

/-- Replace the search-point object at reference `r`. -/
def Heap.setSp (h : Heap) (r : Nat) (v : SPDict) : Heap :=
  { h with spObj := fun n => if n = r then v else h.spObj n }

/-- The object-level state of a `SearchResults` instance: the first two maps
hold deep-copied values, while `model_ids` holds the stored references. -/
structure SearchResultsObj where
  objective_dict : Dict String ObjectiveSpec
  init_model_history : Option String
  search_point_hash_table : Dict String SPDict
  results : Dict String ResDict
  model_ids : Dict String Nat
deriving DecidableEq

/-- `SearchResults.record` (source lines 47-56) at the object level: the
values at `spRef` and `resRef` are captured by `deepcopy`; the reference
`idsRef` itself is stored for `model_ids` (line 56 performs no copy). -/
def recordObj (s : SearchResultsObj) (h : Heap) (spRef resRef idsRef : Nat) :
    SearchResultsObj :=
  let sp := h.spObj spRef
  let key := hash_dict sp
  { s with
    search_point_hash_table := dictSet s.search_point_hash_table key sp
    results := dictSet s.results key (h.resObj resRef)
    model_ids := dictSet s.model_ids key idsRef }

/-- What every query sees at call time: the value-level store obtained by
dereferencing the stored `model_ids` references through the current heap. -/
def derefStore (h : Heap) (s : SearchResultsObj) : SearchResults :=
  { objective_dict := s.objective_dict
    init_model_history := s.init_model_history
    search_point_hash_table := s.search_point_hash_table
    results := s.results
    model_ids := s.model_ids.map (fun p => (p.1, h.idsObj p.2)) }

/-!
Concrete stores used as witnesses and counterexamples.  `exampleStore` is the
spec's own section-8 example: objectives `accuracy` (higher is better) and
`latency_ms` (lower is better), with trials A, B, C on the Pareto frontier and
D dominated by A.
-/

/-- Objective metadata of the section-8 example (no goals configured). -/
def exampleObjDict : Dict String ObjectiveSpec :=
  [("accuracy", { higher_is_better := true, goal := none }),
   ("latency_ms", { higher_is_better := false, goal := none })]

/-- A one-parameter configuration used to give each example trial a distinct
fingerprint. -/
def exampleSP (n : Int) : SPDict := [("pass", [("x", SPVal.int n)])]

/-- A result over the two example objectives. -/
def exampleRes (acc lat : Int) : ResDict := [("accuracy", acc), ("latency_ms", lat)]

/-- The section-8 example store: A(90, 50), B(95, 80), C(85, 40),
D(80, 60) (accuracies scaled by 100), recorded in that order. -/
def exampleStore : SearchResults :=
  ((((SearchResults.init exampleObjDict none).record
        (exampleSP 0) (exampleRes 90 50) ["0_a"]).record
      (exampleSP 1) (exampleRes 95 80) ["1_b"]).record
    (exampleSP 2) (exampleRes 85 40) ["2_c"]).record
    (exampleSP 3) (exampleRes 80 60) ["3_d"]

instance {ε α : Type} [DecidableEq ε] [DecidableEq α] : DecidableEq (Except ε α) := fun x y =>
  match x, y with
  | .error e, .error e' =>
    if h : e = e' then .isTrue (h ▸ rfl) else .isFalse (fun hc => h (Except.error.inj hc))
  | .error _, .ok _ => .isFalse (fun hc => Except.noConfusion hc)
  | .ok _, .error _ => .isFalse (fun hc => Except.noConfusion hc)
  | .ok a, .ok b =>
    if h : a = b then .isTrue (h ▸ rfl) else .isFalse (fun hc => h (Except.ok.inj hc))

/-!  Lemmas about the dictionary operations.  -/

theorem dictLookup_map_val {α β γ : Type} [DecidableEq α] (f : β → γ) (k : α) :
    ∀ d : Dict α β,
      dictLookup (d.map (fun p => (p.1, f p.2))) k = (dictLookup d k).map f
  | [] => rfl
  | (k₀, v₀) :: rest => by
    by_cases hk : k₀ = k <;> simp [dictLookup, hk, dictLookup_map_val f k rest]

theorem dictLookup_replace {α β : Type} [DecidableEq α] (k : α) (v : β) :
    ∀ d : Dict α β,
      dictLookup (dictReplace k v d) k
        = if (dictLookup d k).isSome then some v else none
  | [] => rfl
  | (k₀, v₀) :: rest => by
    by_cases hk : k₀ = k
    · subst hk
      simp [dictReplace, dictLookup]
    · simp only [dictReplace, if_neg hk, dictLookup]
      exact dictLookup_replace k v rest

theorem dictLookup_append_single {α β : Type} [DecidableEq α] (k : α) (v : β) :
    ∀ d : Dict α β,
      dictLookup (d ++ [(k, v)]) k
        = if (dictLookup d k).isSome then dictLookup d k else some v
  | [] => by simp [dictLookup]
  | (k₀, v₀) :: rest => by
    by_cases hk : k₀ = k <;>
      simp [dictLookup, hk, dictLookup_append_single k v rest]

/-- Writing a key makes it readable: `d[k] = v` then `d[k] == v`. -/
theorem dictLookup_dictSet_self {α β : Type} [DecidableEq α] (d : Dict α β) (k : α) (v : β) :
    dictLookup (dictSet d k v) k = some v := by
  unfold dictSet
  by_cases hp : (dictLookup d k).isSome
  · rw [if_pos hp, dictLookup_replace, if_pos hp]
  · rw [if_neg hp, dictLookup_append_single, if_neg hp]

/-- Replacing the binding of `k` in place leaves the other keys' bindings
unchanged. -/
theorem dictLookup_replace_other {α β : Type} [DecidableEq α] (k k' : α) (v : β)
    (hne : k' ≠ k) :
    ∀ d : Dict α β, dictLookup (dictReplace k v d) k' = dictLookup d k'
  | [] => rfl
  | (k₀, v₀) :: rest => by
    by_cases hk : k₀ = k
    · subst hk
      simp only [dictReplace, if_pos rfl, dictLookup]
      rw [if_neg (Ne.symm hne), if_neg (Ne.symm hne)]
      exact dictLookup_replace_other k₀ k' v hne rest
    · simp only [dictReplace, if_neg hk, dictLookup]
      by_cases hk' : k₀ = k'
      · rw [if_pos hk', if_pos hk']
      · rw [if_neg hk', if_neg hk']
        exact dictLookup_replace_other k k' v hne rest

/-- Appending a binding of `k` leaves the other keys' bindings unchanged. -/
theorem dictLookup_append_single_other {α β : Type} [DecidableEq α] (k k' : α) (v : β)
    (hne : k' ≠ k) :
    ∀ d : Dict α β, dictLookup (d ++ [(k, v)]) k' = dictLookup d k'
  | [] => by simp [dictLookup, Ne.symm hne]
  | (k₀, v₀) :: rest => by
    simp only [List.cons_append, dictLookup]
    by_cases hk' : k₀ = k'
    · rw [if_pos hk', if_pos hk']
    · rw [if_neg hk', if_neg hk']
      exact dictLookup_append_single_other k k' v hne rest

/-- Writing one key leaves the other keys' bindings unchanged. -/
theorem dictLookup_dictSet_other {α β : Type} [DecidableEq α] (d : Dict α β) (k k' : α)
    (v : β) (hne : k' ≠ k) : dictLookup (dictSet d k v) k' = dictLookup d k' := by
  unfold dictSet
  by_cases hp : (dictLookup d k).isSome
  · rw [if_pos hp, dictLookup_replace_other k k' v hne]
  · rw [if_neg hp, dictLookup_append_single_other k k' v hne]

/-- Looking up a key absent from the key list gives `none`. -/
theorem dictLookup_none_of_not_mem {α β : Type} [DecidableEq α] (k : α) :
    ∀ d : Dict α β, k ∉ d.map Prod.fst → dictLookup d k = none
  | [], _ => rfl
  | (k₀, v₀) :: rest, hmem => by
    simp only [List.map_cons, List.mem_cons, not_or] at hmem
    have hk : ¬ k₀ = k := fun h => hmem.1 h.symm
    simp only [dictLookup, if_neg hk]
    exact dictLookup_none_of_not_mem k rest hmem.2

/-- A key occurring in the key list looks up to something. -/
theorem dictLookup_isSome_of_mem_keys {α β : Type} [DecidableEq α] (k : α) :
    ∀ d : Dict α β, k ∈ d.map Prod.fst → (dictLookup d k).isSome
  | [], hmem => by simp at hmem
  | (k₀, v₀) :: rest, hmem => by
    by_cases hk : k₀ = k
    · simp [dictLookup, hk]
    · simp only [List.map_cons, List.mem_cons] at hmem
      rcases hmem with h | h
      · exact absurd h.symm hk
      · simp only [dictLookup, if_neg hk]
        exact dictLookup_isSome_of_mem_keys k rest h

/-- Replacing a binding does not change the key list. -/
theorem dictReplace_map_fst {α β : Type} [DecidableEq α] (k : α) (v : β) :
    ∀ d : Dict α β, (dictReplace k v d).map Prod.fst = d.map Prod.fst
  | [] => rfl
  | (k₀, v₀) :: rest => by
    by_cases hk : k₀ = k
    · subst hk
      simpa [dictReplace] using dictReplace_map_fst k₀ v rest
    · simp only [dictReplace, if_neg hk, List.map_cons]
      rw [dictReplace_map_fst k v rest]

/-- A key that looks up to `none` has no binding. -/
theorem countKey_eq_zero {α β : Type} [DecidableEq α] (k : α) :
    ∀ d : Dict α β, dictLookup d k = none → countKey d k = 0
  | [], _ => rfl
  | (k₀, v₀) :: rest, hnone => by
    by_cases hk : k₀ = k
    · simp [dictLookup, hk] at hnone
    · simp only [dictLookup, if_neg hk] at hnone
      simpa [countKey, List.filter, hk] using countKey_eq_zero k rest hnone

/-- With unique keys, a present key has exactly one binding. -/
theorem countKey_eq_one {α β : Type} [DecidableEq α] (k : α) :
    ∀ d : Dict α β, (d.map Prod.fst).Nodup → (dictLookup d k).isSome →
      countKey d k = 1
  | [], _, hp => by simp [dictLookup] at hp
  | (k₀, v₀) :: rest, hnodup, hp => by
    simp only [List.map_cons, List.nodup_cons] at hnodup
    by_cases hk : k₀ = k
    · subst hk
      have : countKey rest k₀ = 0 :=
        countKey_eq_zero k₀ rest (dictLookup_none_of_not_mem k₀ rest hnodup.1)
      simpa [countKey, List.filter] using this
    · simp only [dictLookup, if_neg hk] at hp
      simpa [countKey, List.filter, hk] using countKey_eq_one k rest hnodup.2 hp

/-- In-place replacement of the binding of `k` does not change key counts. -/
theorem countKey_replace {α β : Type} [DecidableEq α] (k : α) (v : β) :
    ∀ d : Dict α β, countKey (dictReplace k v d) k = countKey d k
  | [] => rfl
  | (k₀, v₀) :: rest => by
    by_cases hk : k₀ = k
    · subst hk
      simpa [countKey, dictReplace, List.filter] using countKey_replace k₀ v rest
    · simp only [dictReplace, if_neg hk]
      simpa [countKey, List.filter, hk] using countKey_replace k v rest

/-- With unique keys, writing `k` leaves exactly one binding of `k`. -/
theorem countKey_dictSet_self {α β : Type} [DecidableEq α] (d : Dict α β) (k : α) (v : β)
    (hnodup : (d.map Prod.fst).Nodup) : countKey (dictSet d k v) k = 1 := by
  unfold dictSet
  by_cases hp : (dictLookup d k).isSome
  · rw [if_pos hp, countKey_replace]
    exact countKey_eq_one k d hnodup hp
  · rw [if_neg hp]
    have hnone : dictLookup d k = none := Option.not_isSome_iff_eq_none.mp hp
    simp [countKey, List.filter_append, List.filter]
    have := countKey_eq_zero k d hnone
    simpa [countKey] using this

/-- `dictSet` preserves uniqueness of keys. -/
theorem dictSet_nodup_keys {α β : Type} [DecidableEq α] (d : Dict α β) (k : α) (v : β)
    (hnodup : (d.map Prod.fst).Nodup) : ((dictSet d k v).map Prod.fst).Nodup := by
  unfold dictSet
  by_cases hp : (dictLookup d k).isSome
  · rw [if_pos hp, dictReplace_map_fst]
    exact hnodup
  · rw [if_neg hp]
    have hnone : dictLookup d k = none := Option.not_isSome_iff_eq_none.mp hp
    have hk : k ∉ d.map Prod.fst := by
      intro hmem
      have := dictLookup_isSome_of_mem_keys k d hmem
      rw [hnone] at this
      simp at this
    simp only [List.map_append, List.map_cons, List.map_nil]
    rw [List.nodup_append]
    refine ⟨hnodup, List.nodup_singleton k, ?_⟩
    intro a ha hb
    simp only [List.mem_singleton] at hb
    subst hb
    exact hk ha

/-- Success of `exceptMap` means pointwise success, in order. -/
theorem exceptMap_ok {α β : Type} {f : α → Except PyError β} :
    ∀ {l : List α} {ys : List β}, exceptMap f l = .ok ys →
      List.Forall₂ (fun a b => f a = .ok b) l ys := by
  intro l
  induction l with
  | nil =>
    intro ys h
    unfold exceptMap at h
    cases h
    exact .nil
  | cons a rest ih =>
    intro ys h
    unfold exceptMap at h
    cases hfa : f a with
    | error e => rw [hfa] at h; exact absurd h (by simp)
    | ok b =>
      rw [hfa] at h
      cases hrest : exceptMap f rest with
      | error e => rw [hrest] at h; exact absurd h (by simp)
      | ok bs =>
        rw [hrest] at h
        cases h
        exact .cons hfa (ih hrest)

/-- C4: round-tripping a store through `to_json` and `from_json` yields a
store observably equivalent to the original: `get_pareto_frontier`,
`sort_search_points` and `check_goals` return the same output on the
reconstructed store as on the original, for every argument combination. -/
theorem from_json_to_json_preserves_queries (s : SearchResults)
    (oarg : Option (List String)) (ag : Bool) (r : ResDict) :
    (SearchResults.from_json s.to_json).get_pareto_frontier oarg ag
        = s.get_pareto_frontier oarg ag
    ∧ (SearchResults.from_json s.to_json).sort_search_points oarg ag
        = s.sort_search_points oarg ag
    ∧ (SearchResults.from_json s.to_json).check_goals r = s.check_goals r := by
  have h : SearchResults.from_json s.to_json = s := by cases s; rfl
  rw [h]
  exact ⟨rfl, rfl, rfl⟩

/-- C9: `get_results_df` never returns a table — its first statement passes
the keyword argument `apply_constraints` to `get_pareto_frontier`, which has
no such parameter, so every call raises `TypeError`; here evaluated on a store
that does hold a non-empty entry (for which the claim would demand a row). -/
theorem get_results_df_always_raises :
    SearchResults.get_results_df exampleStore false = .error .typeError
    ∧ exampleStore.results ≠ [] := by
  constructor
  · rfl
  · decide

/-- C1: on the spec's own section-8 example store (four qualifying entries,
frontier {A, B, C}), `get_pareto_frontier` raises `TypeError` instead of
returning the non-dominated entries' model ids: line 65 unpacks the pair
returned by `_get_results_list` in swapped order, so the hash strings are
passed to the frontier finder and the numeric rows are used as `model_ids`
keys.  The second conjunct shows the filtered set indeed has four qualifying
entries. -/
theorem get_pareto_frontier_swapped_unpack_raises :
    exampleStore.get_pareto_frontier none false = .error .typeError
    ∧ (SearchResults.get_results_list exampleStore none false).toOption.map
        (fun p => p.2.length) = some 4 := by
  constructor
  · decide
  · decide

/-- C10: an explicit objectives argument containing a name that is not a
configured objective makes both queries fail with `AssertionError`, whatever
the store's recorded contents are. -/
theorem invalid_objectives_assertion (s : SearchResults) (objs : List String) (ag : Bool)
    (hbad : objs.all (fun o => o ∈ s.objectives) = false) :
    s.sort_search_points (some objs) ag = .error .assertionError
    ∧ s.get_pareto_frontier (some objs) ag = .error .assertionError := by
  have hres : s.resolveObjectives (some objs) = .error .assertionError := by
    simp [SearchResults.resolveObjectives, hbad]
  constructor
  · unfold SearchResults.sort_search_points
    rw [hres]
    rfl
  · unfold SearchResults.get_pareto_frontier SearchResults.get_results_list
    rw [hres]
    rfl

/-- Witness for C10 at a concrete store and unknown objective name. -/
theorem invalid_objectives_assertion_witness :
    (SearchResults.init exampleObjDict none).sort_search_points (some ["zzz"]) false
        = .error .assertionError
    ∧ (SearchResults.init exampleObjDict none).get_pareto_frontier (some ["zzz"]) false
        = .error .assertionError :=
  invalid_objectives_assertion (SearchResults.init exampleObjDict none) ["zzz"] false
    (by decide)

/-- C7: recording the same configuration twice (structural equality gives the
same fingerprint) leaves exactly one binding of that fingerprint in each of
the three maps, holding the second call's result, configuration and artifact
ids. -/
theorem rerecord_last_write_wins (s : SearchResults) (sp : SPDict) (r1 r2 : ResDict)
    (ids1 ids2 : List String)
    (hn1 : (s.results.map Prod.fst).Nodup)
    (hn2 : (s.search_point_hash_table.map Prod.fst).Nodup)
    (hn3 : (s.model_ids.map Prod.fst).Nodup) :
    countKey ((s.record sp r1 ids1).record sp r2 ids2).results (hash_dict sp) = 1
    ∧ countKey ((s.record sp r1 ids1).record sp r2 ids2).search_point_hash_table
        (hash_dict sp) = 1
    ∧ countKey ((s.record sp r1 ids1).record sp r2 ids2).model_ids (hash_dict sp) = 1
    ∧ dictLookup ((s.record sp r1 ids1).record sp r2 ids2).results (hash_dict sp) = some r2
    ∧ dictLookup ((s.record sp r1 ids1).record sp r2 ids2).search_point_hash_table
        (hash_dict sp) = some sp
    ∧ dictLookup ((s.record sp r1 ids1).record sp r2 ids2).model_ids (hash_dict sp)
        = some ids2 := by
  simp only [SearchResults.record]
  exact ⟨countKey_dictSet_self _ _ _ (dictSet_nodup_keys _ _ _ hn1),
         countKey_dictSet_self _ _ _ (dictSet_nodup_keys _ _ _ hn2),
         countKey_dictSet_self _ _ _ (dictSet_nodup_keys _ _ _ hn3),
         dictLookup_dictSet_self _ _ _,
         dictLookup_dictSet_self _ _ _,
         dictLookup_dictSet_self _ _ _⟩

/-- Witness for C7: two records of the same configuration on a fresh store. -/
theorem rerecord_last_write_wins_witness :
    countKey (((SearchResults.init exampleObjDict none).record (exampleSP 0)
        (exampleRes 1 1) ["0_a"]).record (exampleSP 0) (exampleRes 2 2) ["1_b"]).results
        (hash_dict (exampleSP 0)) = 1
    ∧ countKey (((SearchResults.init exampleObjDict none).record (exampleSP 0)
        (exampleRes 1 1) ["0_a"]).record (exampleSP 0) (exampleRes 2 2)
        ["1_b"]).search_point_hash_table (hash_dict (exampleSP 0)) = 1
    ∧ countKey (((SearchResults.init exampleObjDict none).record (exampleSP 0)
        (exampleRes 1 1) ["0_a"]).record (exampleSP 0) (exampleRes 2 2) ["1_b"]).model_ids
        (hash_dict (exampleSP 0)) = 1
    ∧ dictLookup (((SearchResults.init exampleObjDict none).record (exampleSP 0)
        (exampleRes 1 1) ["0_a"]).record (exampleSP 0) (exampleRes 2 2) ["1_b"]).results
        (hash_dict (exampleSP 0)) = some (exampleRes 2 2)
    ∧ dictLookup (((SearchResults.init exampleObjDict none).record (exampleSP 0)
        (exampleRes 1 1) ["0_a"]).record (exampleSP 0) (exampleRes 2 2)
        ["1_b"]).search_point_hash_table (hash_dict (exampleSP 0)) = some (exampleSP 0)
    ∧ dictLookup (((SearchResults.init exampleObjDict none).record (exampleSP 0)
        (exampleRes 1 1) ["0_a"]).record (exampleSP 0) (exampleRes 2 2) ["1_b"]).model_ids
        (hash_dict (exampleSP 0)) = some ["1_b"] :=
  rerecord_last_write_wins (SearchResults.init exampleObjDict none) (exampleSP 0)
    (exampleRes 1 1) (exampleRes 2 2) ["0_a"] ["1_b"] (by decide) (by decide) (by decide)

/-- The empty object-level store over the example objectives. -/
def baseObjStore : SearchResultsObj :=
  { objective_dict := exampleObjDict
    init_model_history := none
    search_point_hash_table := []
    results := []
    model_ids := [] }

/-- A caller heap: the configuration object 0, the result object 0 and the
artifact-id list object 0 hold trial A's data. -/
def exHeap : Heap :=
  { spObj := fun _ => exampleSP 0
    resObj := fun _ => exampleRes 90 50
    idsObj := fun _ => ["0_a"] }

/-- C3 counterexample: `record` stores the caller's `model_ids` list by
reference (source line 56 performs no copy, unlike lines 54-55).  After
recording while the caller's list holds `["0_a"]`, mutating that same list
object to `["1_b"]` changes the stored entry: the store now reads `["1_b"]`,
not the `["0_a"]` present at record time — so the claim that all three
arguments are deep-copied is false. -/
theorem record_model_ids_aliased :
    dictLookup
        (derefStore (exHeap.setIds 0 ["1_b"]) (recordObj baseObjStore exHeap 0 0 0)).model_ids
        (hash_dict (exampleSP 0)) = some ["1_b"]
    ∧ ¬ dictLookup
        (derefStore (exHeap.setIds 0 ["1_b"]) (recordObj baseObjStore exHeap 0 0 0)).model_ids
        (hash_dict (exampleSP 0)) = some ["0_a"] := by
  constructor
  · decide
  · decide

/-- C3 amended: `record` deep-copies `search_point` and `result`, so any later
mutation of the caller's configuration or result objects (any heap change that
leaves the artifact-id objects untouched) leaves the whole observable store —
and hence the output of every subsequent query — unchanged; the artifact-id
list however is stored by reference, so the stored entry always reads the
list's current contents. -/
theorem record_deepcopies_config_and_result (s : SearchResultsObj) (h : Heap)
    (spRef resRef idsRef : Nat) (h' : Heap) (hids : h'.idsObj = h.idsObj) :
    derefStore h' (recordObj s h spRef resRef idsRef)
        = derefStore h (recordObj s h spRef resRef idsRef)
    ∧ dictLookup (derefStore h' (recordObj s h spRef resRef idsRef)).results
        (hash_dict (h.spObj spRef)) = some (h.resObj resRef)
    ∧ dictLookup (derefStore h' (recordObj s h spRef resRef idsRef)).search_point_hash_table
        (hash_dict (h.spObj spRef)) = some (h.spObj spRef)
    ∧ dictLookup (derefStore h' (recordObj s h spRef resRef idsRef)).model_ids
        (hash_dict (h.spObj spRef)) = some (h'.idsObj idsRef) := by
  refine ⟨?_, ?_, ?_, ?_⟩
  · simp [derefStore, hids]
  · simp only [derefStore, recordObj]
    exact dictLookup_dictSet_self _ _ _
  · simp only [derefStore, recordObj]
    exact dictLookup_dictSet_self _ _ _
  · simp only [derefStore, recordObj]
    rw [dictLookup_map_val]
    rw [dictLookup_dictSet_self]
    rfl

/-- Witness for C3's amended theorem: mutating the caller's result object
after `record` changes nothing observable, while the stored artifact ids read
through the (untouched) list object. -/
theorem record_deepcopies_config_and_result_witness :
    derefStore (exHeap.setRes 0 []) (recordObj baseObjStore exHeap 0 0 0)
        = derefStore exHeap (recordObj baseObjStore exHeap 0 0 0)
    ∧ dictLookup (derefStore (exHeap.setRes 0 []) (recordObj baseObjStore exHeap 0 0 0)).results
        (hash_dict (exampleSP 0)) = some (exampleRes 90 50)
    ∧ dictLookup
        (derefStore (exHeap.setRes 0 []) (recordObj baseObjStore exHeap 0 0 0)).search_point_hash_table
        (hash_dict (exampleSP 0)) = some (exampleSP 0)
    ∧ dictLookup
        (derefStore (exHeap.setRes 0 []) (recordObj baseObjStore exHeap 0 0 0)).model_ids
        (hash_dict (exampleSP 0)) = some ["0_a"] := by
  exact record_deepcopies_config_and_result baseObjStore exHeap 0 0 0 (exHeap.setRes 0 []) rfl

/-- Objectives `a` and `b`, both higher-is-better, both with goal 1. -/
def goalObjDict : Dict String ObjectiveSpec :=
  [("a", { higher_is_better := true, goal := some 1 }),
   ("b", { higher_is_better := true, goal := some 1 })]

/-- A fresh store over `goalObjDict`. -/
def goalStore : SearchResults := SearchResults.init goalObjDict none

/-- C5 counterexample: objective `b` has a configured goal and is missing from
the result, yet `check_goals` returns `False` rather than raising: the loop
hits objective `a` first, whose value 0 fails its goal 1, and returns before
ever looking up `b`. -/
theorem check_goals_missing_goal_no_raise :
    goalStore.check_goals [("a", 0)] = .ok false
    ∧ dictLookup goalStore.goals "b" = some 1
    ∧ dictLookup [("a", (0 : Int))] "b" = none := by
  refine ⟨by rfl, by rfl, by rfl⟩

/-- `goalsLoop` returns `True` exactly when every scanned goal objective is
present and passes. -/
theorem goalsLoop_ok_true_iff (s : SearchResults) (r : ResDict) :
    ∀ gs : Dict String Int,
      SearchResults.goalsLoop s r gs = .ok true ↔
        ∀ p ∈ gs, ∃ v, dictLookup r p.1 = some v ∧ s.objMul p.1 * p.2 ≤ s.objMul p.1 * v
  | [] => by simp [SearchResults.goalsLoop]
  | (obj, g) :: rest => by
    cases hl : dictLookup r obj with
    | none =>
      simp only [SearchResults.goalsLoop, hl]
      constructor
      · intro h; exact absurd h (by simp)
      · intro h
        rcases h (obj, g) (List.mem_cons_self _ _) with ⟨v, hv, _⟩
        rw [hl] at hv
        exact absurd hv (by simp)
    | some v =>
      simp only [SearchResults.goalsLoop, hl]
      by_cases hlt : s.objMul obj * v < s.objMul obj * g
      · rw [if_pos hlt]
        constructor
        · intro h; exact absurd h (by simp)
        · intro h
          rcases h (obj, g) (List.mem_cons_self _ _) with ⟨w, hw, hge⟩
          rw [hl] at hw
          cases hw
          exact absurd hge (not_le.mpr hlt)
      · rw [if_neg hlt]
        rw [goalsLoop_ok_true_iff s r rest]
        constructor
        · intro h p hp
          rcases List.mem_cons.mp hp with h₁ | h₁
          · subst h₁
            exact ⟨v, hl, not_lt.mp hlt⟩
          · exact h p h₁
        · intro h p hp
          exact h p (List.mem_cons_of_mem _ hp)

/-- `goalsLoop` raises `KeyError` exactly when some scanned goal objective is
missing from the result and every goal objective before it passes. -/
theorem goalsLoop_error_iff (s : SearchResults) (r : ResDict) :
    ∀ gs : Dict String Int,
      SearchResults.goalsLoop s r gs = .error .keyError ↔
        ∃ pre obj g post, gs = pre ++ (obj, g) :: post
          ∧ dictLookup r obj = none
          ∧ ∀ p ∈ pre, ∃ v, dictLookup r p.1 = some v ∧ s.objMul p.1 * p.2 ≤ s.objMul p.1 * v
  | [] => by
    simp only [SearchResults.goalsLoop]
    constructor
    · intro h; exact absurd h (by simp)
    · rintro ⟨pre, obj, g, post, heq, -, -⟩
      exact absurd heq.symm (by simp)
  | (obj, g) :: rest => by
    cases hl : dictLookup r obj with
    | none =>
      simp only [SearchResults.goalsLoop, hl]
      constructor
      · intro _
        exact ⟨[], obj, g, rest, rfl, hl, by simp⟩
      · intro _
        trivial
    | some v =>
      simp only [SearchResults.goalsLoop, hl]
      by_cases hlt : s.objMul obj * v < s.objMul obj * g
      · rw [if_pos hlt]
        constructor
        · intro h; exact absurd h (by simp)
        · rintro ⟨pre, obj', g', post, heq, hnone, hpre⟩
          cases pre with
          | nil =>
            simp only [List.nil_append, List.cons.injEq] at heq
            rcases heq with ⟨hhead, -⟩
            cases hhead
            rw [hl] at hnone
            exact absurd hnone (by simp)
          | cons q pre' =>
            simp only [List.cons_append, List.cons.injEq] at heq
            rcases heq with ⟨hq, -⟩
            subst hq
            rcases hpre (obj, g) (List.mem_cons_self _ _) with ⟨w, hw, hge⟩
            rw [hl] at hw
            cases hw
            exact absurd hge (not_le.mpr hlt)
      · rw [if_neg hlt]
        rw [goalsLoop_error_iff s r rest]
        constructor
        · rintro ⟨pre, obj', g', post, heq, hnone, hpre⟩
          refine ⟨(obj, g) :: pre, obj', g', post, by rw [heq, List.cons_append], hnone, ?_⟩
          intro p hp
          rcases List.mem_cons.mp hp with h₁ | h₁
          · subst h₁
            exact ⟨v, hl, not_lt.mp hlt⟩
          · exact hpre p h₁
        · rintro ⟨pre, obj', g', post, heq, hnone, hpre⟩
          cases pre with
          | nil =>
            simp only [List.nil_append, List.cons.injEq] at heq
            rcases heq with ⟨hhead, -⟩
            cases hhead
            rw [hl] at hnone
            exact absurd hnone (by simp)
          | cons q pre' =>
            simp only [List.cons_append, List.cons.injEq] at heq
            rcases heq with ⟨hq, htail⟩
            refine ⟨pre', obj', g', post, htail, hnone, ?_⟩
            intro p hp
            exact hpre p (List.mem_cons_of_mem _ hp)

/-- C5 amended: `check_goals` returns `False` when no goals are configured;
otherwise it scans the goal objectives in configuration order, so it returns
`True` iff every goal objective is present with direction-adjusted value at
least the direction-adjusted goal, and it raises a lookup failure iff some
goal objective is missing from the result and every goal objective configured
before it is present and passes (a failing value encountered first returns
`False` without reaching a later missing objective). -/
theorem check_goals_characterization (s : SearchResults) (r : ResDict) :
    (s.goals = [] → s.check_goals r = .ok false)
    ∧ (s.check_goals r = .ok true ↔
        s.goals ≠ [] ∧ ∀ p ∈ s.goals, ∃ v, dictLookup r p.1 = some v
          ∧ s.objMul p.1 * p.2 ≤ s.objMul p.1 * v)
    ∧ (s.check_goals r = .error .keyError ↔
        ∃ pre obj g post, s.goals = pre ++ (obj, g) :: post
          ∧ dictLookup r obj = none
          ∧ ∀ p ∈ pre, ∃ v, dictLookup r p.1 = some v
            ∧ s.objMul p.1 * p.2 ≤ s.objMul p.1 * v) := by
  unfold SearchResults.check_goals
  by_cases hg : s.goals = []
  · rw [if_pos hg]
    refine ⟨fun _ => rfl, ?_, ?_⟩
    · constructor
      · intro h; exact absurd h (by simp)
      · rintro ⟨hne, -⟩
        exact absurd hg hne
    · constructor
      · intro h; exact absurd h (by simp)
      · rintro ⟨pre, obj, g, post, heq, -, -⟩
        rw [hg] at heq
        exact absurd heq.symm (by simp)
  · rw [if_neg hg]
    refine ⟨fun h => absurd h hg, ?_, ?_⟩
    · rw [goalsLoop_ok_true_iff]
      constructor
      · intro h; exact ⟨hg, h⟩
      · rintro ⟨-, h⟩; exact h
    · rw [goalsLoop_error_iff]

/-- Witness for C5's amended theorem: a store with no configured goals gives
`False` even on an empty result. -/
theorem check_goals_characterization_witness :
    (SearchResults.init exampleObjDict none).check_goals [] = .ok false :=
  (check_goals_characterization (SearchResults.init exampleObjDict none) []).1 (by decide)

/-- Resolving an already-resolved objectives list succeeds with the same
list: the output of `resolveObjectives` always passes its own subset check. -/
theorem resolve_idem (s : SearchResults) (oarg : Option (List String)) (objs : List String)
    (h : s.resolveObjectives oarg = .ok objs) :
    s.resolveObjectives (some objs) = .ok objs := by
  cases oarg with
  | none =>
    have hobjs : objs = s.objectives := by
      have : Except.ok (ε := PyError) s.objectives = .ok objs := h
      exact (Except.ok.inj this).symm
    subst hobjs
    simp [SearchResults.resolveObjectives, List.all_eq_true]
  | some l =>
    simp only [SearchResults.resolveObjectives] at h ⊢
    by_cases hc : l.all (fun o => o ∈ s.objectives)
    · rw [if_pos hc] at h
      have : l = objs := Except.ok.inj h
      subst this
      rw [if_pos hc]
    · rw [if_neg hc] at h
      exact absurd h (by simp)

/-- C8: when no entry qualifies after filtering (the filtered rows and hashes
are both empty — all stored results empty, or all failing their goals under
`apply_goals`), `sort_search_points` returns the `(None, None, None)` sentinel
and `get_pareto_frontier` returns the empty sequence, neither raising. -/
theorem degenerate_query_sentinels (s : SearchResults) (oarg : Option (List String)) (ag : Bool)
    (hempty : SearchResults.get_results_list s oarg ag = .ok ([], [])) :
    s.sort_search_points oarg ag = .ok none
    ∧ s.get_pareto_frontier oarg ag = .ok [] := by
  have hgpf : s.get_pareto_frontier oarg ag = .ok [] := by
    unfold SearchResults.get_pareto_frontier
    rw [hempty]
    rfl
  refine ⟨?_, hgpf⟩
  cases hres : s.resolveObjectives oarg with
  | error e =>
    unfold SearchResults.get_results_list at hempty
    rw [hres] at hempty
    exact absurd hempty (by simp [Bind.bind, Except.bind])
  | ok objs =>
    cases hent : SearchResults.resultsEntries s objs ag s.results with
    | error e =>
      unfold SearchResults.get_results_list at hempty
      rw [hres] at hempty
      simp only [Bind.bind, Except.bind] at hempty
      rw [hent] at hempty
      exact absurd hempty (by simp)
    | ok entries =>
      have hnil : entries = [] := by
        unfold SearchResults.get_results_list at hempty
        rw [hres] at hempty
        simp only [Bind.bind, Except.bind] at hempty
        rw [hent] at hempty
        simp only [pure, Except.pure, Except.ok.injEq, Prod.mk.injEq] at hempty
        cases entries with
        | nil => rfl
        | cons p rest => simp at hempty
      have hgrl2 : SearchResults.get_results_list s (some objs) ag = .ok ([], []) := by
        unfold SearchResults.get_results_list
        rw [resolve_idem s oarg objs hres]
        simp only [Bind.bind, Except.bind]
        rw [hent, hnil]
        rfl
      unfold SearchResults.sort_search_points
      rw [hres]
      simp only [Bind.bind, Except.bind]
      rw [hgrl2]
      rfl

/-- A store holding a single entry whose recorded result is empty. -/
def emptyResultStore : SearchResults :=
  (SearchResults.init exampleObjDict none).record (exampleSP 0) [] ["0_a"]

/-- Witness for C8: one recorded trial with an empty result — no entry
qualifies, the sentinel and the empty sequence come back. -/
theorem degenerate_query_sentinels_witness :
    emptyResultStore.sort_search_points none false = .ok none
    ∧ emptyResultStore.get_pareto_frontier none false = .ok [] :=
  degenerate_query_sentinels emptyResultStore none false (by rfl)

/-- `exceptMap` only depends on the function's values on the list. -/
theorem exceptMap_congr {α β : Type} {f g : α → Except PyError β} :
    ∀ {l : List α}, (∀ a ∈ l, f a = g a) → exceptMap f l = exceptMap g l
  | [], _ => rfl
  | a :: rest, h => by
    unfold exceptMap
    rw [h a (List.mem_cons_self a rest),
      exceptMap_congr (fun b hb => h b (List.mem_cons_of_mem a hb))]

/-- With unique keys, list membership determines the lookup. -/
theorem dictLookup_of_mem_nodup {α β : Type} [DecidableEq α] {k : α} {v : β} :
    ∀ {d : Dict α β}, (d.map Prod.fst).Nodup → (k, v) ∈ d → dictLookup d k = some v := by
  intro d
  induction d with
  | nil => intro _ hmem; simp at hmem
  | cons q rest ih =>
    rcases q with ⟨k₀, v₀⟩
    intro hnodup hmem
    simp only [List.map_cons, List.nodup_cons] at hnodup
    rcases List.mem_cons.mp hmem with h₁ | h₁
    · rcases Prod.mk.inj h₁.symm with ⟨hk, hv⟩
      subst hk
      subst hv
      simp [dictLookup]
    · have hne : ¬ k₀ = k := by
        intro hk
        subst hk
        exact hnodup.1 (List.mem_map_of_mem Prod.fst h₁)
      simp only [dictLookup, if_neg hne]
      exact ih hnodup.2 h₁

/-- Dropping empty-valued bindings preserves the lookup of a key whose first
binding is non-empty. -/
theorem dictLookup_filter_nonEmpty {k : String} {r : ResDict} :
    ∀ {d : Dict String ResDict}, dictLookup d k = some r → r ≠ [] →
      dictLookup (d.filter (fun p => !p.2.isEmpty)) k = some r := by
  intro d
  induction d with
  | nil => intro h _; simp [dictLookup] at h
  | cons q rest ih =>
    rcases q with ⟨k₀, v₀⟩
    intro h hr
    by_cases hk : k₀ = k
    · subst hk
      have hv : v₀ = r := by
        simp only [dictLookup, if_pos rfl] at h
        exact Option.some.inj h
      subst hv
      have hemp : v₀.isEmpty = false := by
        cases v₀ with
        | nil => exact absurd rfl hr
        | cons a l => rfl
      simp [List.filter, hemp, dictLookup]
    · simp only [dictLookup, if_neg hk] at h
      cases hemp : v₀.isEmpty with
      | true =>
        simp only [List.filter, hemp, Bool.not_true]
        exact ih h hr
      | false =>
        simp only [List.filter, hemp, Bool.not_false, dictLookup, if_neg hk]
        exact ih h hr

/-- An element of the sorted hash list is one of the input hashes. -/
theorem mem_sortedHashesOf {s : SearchResults} {objs : List String}
    {rows : List (List Int)} {hashes : List String} {hh : String}
    (hmem : hh ∈ SearchResults.sortedHashesOf s objs rows hashes) : hh ∈ hashes := by
  rcases List.mem_map.mp hmem with ⟨p, hp, hph⟩
  have hpL := (List.perm_insertionSort pairKeyLe _).mem_iff.mp hp
  exact hph ▸ (List.of_mem_zip hpL).2

/-- `objMul` only depends on `objective_dict`. -/
theorem objMul_funext (s s' : SearchResults) (hod : s'.objective_dict = s.objective_dict) :
    s'.objMul = s.objMul := by
  funext obj
  unfold SearchResults.objMul
  rw [hod]

/-- `goalsLoop` only depends on `objective_dict`. -/
theorem goalsLoop_congr (s s' : SearchResults) (hod : s'.objective_dict = s.objective_dict)
    (r : ResDict) : ∀ gs, SearchResults.goalsLoop s' r gs = SearchResults.goalsLoop s r gs
  | [] => rfl
  | (obj, g) :: rest => by
    cases hl : dictLookup r obj with
    | none => simp only [SearchResults.goalsLoop, hl]
    | some v =>
      simp only [SearchResults.goalsLoop, hl]
      rw [objMul_funext s s' hod]
      by_cases hlt : s.objMul obj * v < s.objMul obj * g
      · rw [if_pos hlt, if_pos hlt]
      · rw [if_neg hlt, if_neg hlt]
        exact goalsLoop_congr s s' hod r rest

/-- `check_goals` only depends on `objective_dict`. -/
theorem check_goals_congr (s s' : SearchResults) (hod : s'.objective_dict = s.objective_dict)
    (r : ResDict) : s'.check_goals r = s.check_goals r := by
  unfold SearchResults.check_goals
  have hg : s'.goals = s.goals := by
    unfold SearchResults.goals
    rw [hod]
  rw [hg, goalsLoop_congr s s' hod r s.goals]

/-- `entryRow` only depends on `objective_dict`. -/
theorem entryRow_congr (s s' : SearchResults) (hod : s'.objective_dict = s.objective_dict)
    (objs : List String) (r : ResDict) :
    SearchResults.entryRow s' objs r = SearchResults.entryRow s objs r := by
  unfold SearchResults.entryRow
  rw [objMul_funext s s' hod]

/-- The `_get_results_list` loop only depends on `objective_dict` (besides the
dict it iterates). -/
theorem resultsEntries_congr (s s' : SearchResults) (hod : s'.objective_dict = s.objective_dict)
    (objs : List String) (ag : Bool) :
    ∀ d, SearchResults.resultsEntries s' objs ag d = SearchResults.resultsEntries s objs ag d
  | [] => rfl
  | (h, r) :: rest => by
    by_cases hr : r = []
    · simp only [SearchResults.resultsEntries, if_pos hr]
      exact resultsEntries_congr s s' hod objs ag rest
    · simp only [SearchResults.resultsEntries, if_neg hr]
      rw [check_goals_congr s s' hod r, entryRow_congr s s' hod objs r,
        resultsEntries_congr s s' hod objs ag rest]

/-- The store with every empty-result entry dropped from the results ledger. -/
def filterNonEmptyResults (s : SearchResults) : SearchResults :=
  { s with results := s.results.filter (fun p => !p.2.isEmpty) }

/-- The `_get_results_list` loop ignores empty-result bindings, so filtering
them away first changes nothing. -/
theorem resultsEntries_filter (s : SearchResults) (objs : List String) (ag : Bool) :
    ∀ d : Dict String ResDict,
      SearchResults.resultsEntries s objs ag (d.filter (fun p => !p.2.isEmpty))
        = SearchResults.resultsEntries s objs ag d
  | [] => rfl
  | (h, r) :: rest => by
    by_cases hr : r = []
    · subst hr
      have hf : ((h, ([] : ResDict)) :: rest).filter (fun p => !p.2.isEmpty)
          = rest.filter (fun p => !p.2.isEmpty) := by
        simp [List.filter]
      rw [hf, resultsEntries_filter s objs ag rest]
      simp [SearchResults.resultsEntries]
    · have hemp : r.isEmpty = false := by
        cases r with
        | nil => exact absurd rfl hr
        | cons a l => rfl
      have hf : ((h, r) :: rest).filter (fun p => !p.2.isEmpty)
          = (h, r) :: rest.filter (fun p => !p.2.isEmpty) := by
        simp [List.filter, hemp]
      rw [hf]
      simp only [SearchResults.resultsEntries, if_neg hr]
      rw [resultsEntries_filter s objs ag rest]

/-- `_get_results_list` gives the same output on the filtered store. -/
theorem get_results_list_filter (s : SearchResults) (oarg : Option (List String)) (ag : Bool) :
    SearchResults.get_results_list (filterNonEmptyResults s) oarg ag
      = SearchResults.get_results_list s oarg ag := by
  unfold SearchResults.get_results_list
  have hres : (filterNonEmptyResults s).resolveObjectives oarg = s.resolveObjectives oarg := by
    cases oarg <;> rfl
  rw [hres]
  cases hr : s.resolveObjectives oarg with
  | error e => rfl
  | ok objs =>
    simp only [Bind.bind, Except.bind]
    have hent : SearchResults.resultsEntries (filterNonEmptyResults s) objs ag
        (filterNonEmptyResults s).results = SearchResults.resultsEntries s objs ag s.results := by
      have h1 : (filterNonEmptyResults s).results = s.results.filter (fun p => !p.2.isEmpty) :=
        rfl
      rw [h1, resultsEntries_congr s (filterNonEmptyResults s) rfl objs ag,
        resultsEntries_filter s objs ag s.results]
    rw [hent]

/-- Every entry produced by the `_get_results_list` loop comes from a
non-empty binding of the iterated dict whose row `entryRow` computed. -/
theorem resultsEntries_mem (s : SearchResults) (objs : List String) (ag : Bool) :
    ∀ {d : Dict String ResDict} {entries : List (List Int × String)},
      SearchResults.resultsEntries s objs ag d = .ok entries →
      ∀ p ∈ entries, ∃ r, (p.2, r) ∈ d ∧ r ≠ [] ∧ SearchResults.entryRow s objs r = .ok p.1 := by
  intro d
  induction d with
  | nil =>
    intro entries hE p hp
    simp only [SearchResults.resultsEntries] at hE
    cases hE
    simp at hp
  | cons q rest ih =>
    rcases q with ⟨h, r⟩
    intro entries hE p hp
    by_cases hr : r = []
    · simp only [SearchResults.resultsEntries, if_pos hr] at hE
      rcases ih hE p hp with ⟨r', hmem, hne, hrow⟩
      exact ⟨r', List.mem_cons_of_mem _ hmem, hne, hrow⟩
    · simp only [SearchResults.resultsEntries, if_neg hr] at hE
      cases hcg : (if ag then s.check_goals r else Except.ok true) with
      | error e =>
        rw [hcg] at hE
        exact absurd hE (by simp)
      | ok keep =>
        rw [hcg] at hE
        cases keep with
        | false =>
          simp only [Bool.false_eq_true, if_false] at hE
          rcases ih hE p hp with ⟨r', hmem, hne, hrow⟩
          exact ⟨r', List.mem_cons_of_mem _ hmem, hne, hrow⟩
        | true =>
          simp only [if_true] at hE
          cases hrow : SearchResults.entryRow s objs r with
          | error e =>
            rw [hrow] at hE
            exact absurd hE (by simp)
          | ok row =>
            rw [hrow] at hE
            cases hrec : SearchResults.resultsEntries s objs ag rest with
            | error e =>
              rw [hrec] at hE
              exact absurd hE (by simp)
            | ok tail =>
              rw [hrec] at hE
              have hentries : entries = (row, h) :: tail := (Except.ok.inj hE).symm
              subst hentries
              rcases List.mem_cons.mp hp with h₁ | h₁
              · subst h₁
                exact ⟨r, List.mem_cons_self _ _, hr, hrow⟩
              · rcases ih hrec p h₁ with ⟨r', hmem, hne, hrow'⟩
                exact ⟨r', List.mem_cons_of_mem _ hmem, hne, hrow'⟩

/-- Unpacking a successful `_get_results_list` call. -/
theorem get_results_list_ok (s : SearchResults) (oarg : Option (List String)) (ag : Bool)
    {rows : List (List Int)} {hashes : List String}
    (h : SearchResults.get_results_list s oarg ag = .ok (rows, hashes)) :
    ∃ objs entries, s.resolveObjectives oarg = .ok objs
      ∧ SearchResults.resultsEntries s objs ag s.results = .ok entries
      ∧ rows = entries.map (fun p => p.1) ∧ hashes = entries.map (fun p => p.2) := by
  cases hres : s.resolveObjectives oarg with
  | error e =>
    unfold SearchResults.get_results_list at h
    rw [hres] at h
    exact absurd h (by simp [Bind.bind, Except.bind])
  | ok objs =>
    cases hent : SearchResults.resultsEntries s objs ag s.results with
    | error e =>
      unfold SearchResults.get_results_list at h
      rw [hres] at h
      simp only [Bind.bind, Except.bind] at h
      rw [hent] at h
      exact absurd h (by simp)
    | ok entries =>
      unfold SearchResults.get_results_list at h
      rw [hres] at h
      simp only [Bind.bind, Except.bind] at h
      rw [hent] at h
      simp only [pure, Except.pure, Except.ok.injEq, Prod.mk.injEq] at h
      exact ⟨objs, entries, rfl, hent, h.1.symm, h.2.symm⟩

/-- The sorting tail gives the same output on two stores that agree on
`objective_dict`, `model_ids` and `search_point_hash_table` and whose results
ledgers agree on every hash of the sorted pair. -/
theorem sortResultsTail_congr (s s' : SearchResults)
    (hod : s'.objective_dict = s.objective_dict)
    (hmid : s'.model_ids = s.model_ids)
    (hspt : s'.search_point_hash_table = s.search_point_hash_table)
    (objs : List String) (pair : List (List Int) × List String)
    (hlk : ∀ hh ∈ pair.2, dictLookup s'.results hh = dictLookup s.results hh) :
    SearchResults.sortResultsTail s' objs pair = SearchResults.sortResultsTail s objs pair := by
  by_cases hp : pair.1 = []
  · simp only [SearchResults.sortResultsTail, if_pos hp]
  · simp only [SearchResults.sortResultsTail, if_neg hp]
    have hsh : SearchResults.sortedHashesOf s' objs pair.1 pair.2
        = SearchResults.sortedHashesOf s objs pair.1 pair.2 := by
      unfold SearchResults.sortedHashesOf
      rw [objMul_funext s s' hod]
    rw [hsh, hmid, hspt]
    have h2 : exceptMap (lookupOrKeyError s'.results)
        (SearchResults.sortedHashesOf s objs pair.1 pair.2)
      = exceptMap (lookupOrKeyError s.results)
        (SearchResults.sortedHashesOf s objs pair.1 pair.2) := by
      apply exceptMap_congr
      intro hh hmem
      unfold lookupOrKeyError
      rw [hlk hh (mem_sortedHashesOf hmem)]
    rw [h2]

/-- C6: entries whose stored result is the empty mapping are excluded from
both `sort_search_points` and `get_pareto_frontier` — dropping all such
entries from the results ledger changes neither query's output, for every
argument combination, and every hash selected by the filtering loop belongs to
a non-empty entry. -/
theorem empty_results_excluded (s : SearchResults) (oarg : Option (List String)) (ag : Bool)
    (hnodup : (s.results.map Prod.fst).Nodup) :
    s.sort_search_points oarg ag = (filterNonEmptyResults s).sort_search_points oarg ag
    ∧ s.get_pareto_frontier oarg ag = (filterNonEmptyResults s).get_pareto_frontier oarg ag
    ∧ (∀ rows hashes, SearchResults.get_results_list s oarg ag = .ok (rows, hashes) →
        ∀ hh ∈ hashes, ∃ r, (hh, r) ∈ s.results ∧ r ≠ []) := by
  have hprov : ∀ rows hashes, SearchResults.get_results_list s oarg ag = .ok (rows, hashes) →
      ∀ hh ∈ hashes, ∃ r, (hh, r) ∈ s.results ∧ r ≠ [] := by
    intro rows hashes h hh hmem
    rcases get_results_list_ok s oarg ag h with ⟨objs, entries, -, hent, -, hhashes⟩
    rw [hhashes] at hmem
    rcases List.mem_map.mp hmem with ⟨p, hp, hph⟩
    rcases resultsEntries_mem s objs ag hent p hp with ⟨r, hmemr, hne, -⟩
    exact ⟨r, hph ▸ hmemr, hne⟩
  have hgpf : s.get_pareto_frontier oarg ag
      = (filterNonEmptyResults s).get_pareto_frontier oarg ag := by
    unfold SearchResults.get_pareto_frontier
    rw [get_results_list_filter]
  have hsort : s.sort_search_points oarg ag
      = (filterNonEmptyResults s).sort_search_points oarg ag := by
    unfold SearchResults.sort_search_points
    have h1 : (filterNonEmptyResults s).resolveObjectives oarg = s.resolveObjectives oarg := by
      cases oarg <;> rfl
    rw [h1]
    cases hres : s.resolveObjectives oarg with
    | error e => rfl
    | ok objs =>
      simp only [Bind.bind, Except.bind]
      rw [get_results_list_filter]
      cases hgrl : SearchResults.get_results_list s (some objs) ag with
      | error e => rfl
      | ok pair =>
        rcases pair with ⟨rows, hashes⟩
        have hlk : ∀ hh ∈ hashes, dictLookup (filterNonEmptyResults s).results hh
            = dictLookup s.results hh := by
          intro hh hmem
          rcases get_results_list_ok s (some objs) ag hgrl with ⟨objs', entries, -, hent, -, hh2⟩
          rw [hh2] at hmem
          rcases List.mem_map.mp hmem with ⟨p, hp, hph⟩
          rcases resultsEntries_mem s objs' ag hent p hp with ⟨r, hmemr, hne, -⟩
          have hlkp : dictLookup s.results hh = some r :=
            dictLookup_of_mem_nodup hnodup (hph ▸ hmemr)
          have : (filterNonEmptyResults s).results
              = s.results.filter (fun p => !p.2.isEmpty) := rfl
          rw [this, dictLookup_filter_nonEmpty hlkp hne, hlkp]
        exact (sortResultsTail_congr s (filterNonEmptyResults s) rfl rfl rfl objs
          (rows, hashes) hlk).symm
  exact ⟨hsort, hgpf, hprov⟩

/-- A store holding one non-empty entry and one empty entry. -/
def mixedStore : SearchResults :=
  ((SearchResults.init exampleObjDict none).record (exampleSP 0) (exampleRes 90 50)
    ["0_a"]).record (exampleSP 1) [] ["1_b"]

/-- Witness for C6 at a concrete store with an empty-result entry. -/
theorem empty_results_excluded_witness :
    mixedStore.sort_search_points none false
        = (filterNonEmptyResults mixedStore).sort_search_points none false
    ∧ mixedStore.get_pareto_frontier none false
        = (filterNonEmptyResults mixedStore).get_pareto_frontier none false :=
  ⟨(empty_results_excluded mixedStore none false (by decide)).1,
   (empty_results_excluded mixedStore none false (by decide)).2.1⟩

/-- Unfolding lemma for `lexLe` on two cons cells. -/
theorem lexLe_cons_iff {a b : Int} {as bs : List Int} :
    lexLe (a :: as) (b :: bs) = true ↔ a < b ∨ (a = b ∧ lexLe as bs = true) := by
  show (if a < b then true else if b < a then false else lexLe as bs) = true
    ↔ a < b ∨ (a = b ∧ lexLe as bs = true)
  by_cases h₁ : a < b
  · rw [if_pos h₁]
    simp [h₁]
  · rw [if_neg h₁]
    by_cases h₂ : b < a
    · rw [if_pos h₂]
      constructor
      · intro h; exact absurd h (by simp)
      · rintro (h | ⟨heq, -⟩)
        · exact absurd h h₁
        · exact absurd (heq ▸ h₂) (lt_irrefl a)
    · rw [if_neg h₂]
      have heq : a = b := le_antisymm (not_lt.mp h₂) (not_lt.mp h₁)
      constructor
      · intro h; exact Or.inr ⟨heq, h⟩
      · rintro (h | ⟨-, h⟩)
        · exact absurd h h₁
        · exact h

/-- `lexLe` is total. -/
theorem lexLe_total : ∀ x y : List Int, lexLe x y = true ∨ lexLe y x = true
  | [], _ => Or.inl rfl
  | _ :: _, [] => Or.inr rfl
  | a :: as, b :: bs => by
    rcases lt_trichotomy a b with h | h | h
    · exact Or.inl (lexLe_cons_iff.mpr (Or.inl h))
    · rcases lexLe_total as bs with h' | h'
      · exact Or.inl (lexLe_cons_iff.mpr (Or.inr ⟨h, h'⟩))
      · exact Or.inr (lexLe_cons_iff.mpr (Or.inr ⟨h.symm, h'⟩))
    · exact Or.inr (lexLe_cons_iff.mpr (Or.inl h))

/-- `lexLe` is transitive. -/
theorem lexLe_trans : ∀ {x y z : List Int}, lexLe x y = true → lexLe y z = true →
    lexLe x z = true
  | [], _, _, _, _ => rfl
  | _ :: _, [], _, hxy, _ => by simp [lexLe] at hxy
  | _ :: _, _ :: _, [], _, hyz => by simp [lexLe] at hyz
  | a :: as, b :: bs, c :: cs, hxy, hyz => by
    rcases lexLe_cons_iff.mp hxy with h₁ | ⟨h₁, h₁'⟩ <;>
      rcases lexLe_cons_iff.mp hyz with h₂ | ⟨h₂, h₂'⟩
    · exact lexLe_cons_iff.mpr (Or.inl (lt_trans h₁ h₂))
    · exact lexLe_cons_iff.mpr (Or.inl (h₂ ▸ h₁))
    · exact lexLe_cons_iff.mpr (Or.inl (h₁ ▸ h₂))
    · exact lexLe_cons_iff.mpr (Or.inr ⟨h₁.trans h₂, lexLe_trans h₁' h₂'⟩)

instance : IsTotal (List Int × String) pairKeyLe :=
  ⟨fun p q => lexLe_total p.1.reverse q.1.reverse⟩

instance : IsTrans (List Int × String) pairKeyLe :=
  ⟨fun _ _ _ h₁ h₂ => lexLe_trans h₁ h₂⟩

/-- The raw (direction-unadjusted) value vector of a result over the selected
objectives. -/
def rawKey (objs : List String) (r : ResDict) : List Int :=
  objs.map (fun o => (dictLookup r o).getD 0)

/-- The direction multiplier squares to one. -/
theorem objMul_eq_one_or (s : SearchResults) (obj : String) :
    s.objMul obj = 1 ∨ s.objMul obj = -1 := by
  cases hl : dictLookup s.objective_dict obj with
  | none =>
    left
    unfold SearchResults.objMul
    rw [hl]
  | some o =>
    cases hb : o.higher_is_better with
    | true =>
      left
      unfold SearchResults.objMul
      rw [hl]
      simp [hb]
    | false =>
      right
      unfold SearchResults.objMul
      rw [hl]
      simp [hb]

/-- Multiplying twice by the direction multiplier gives back the raw value:
the second adjustment on source line 130 cancels the one on line 161. -/
theorem objMul_mul_cancel (s : SearchResults) (obj : String) (x : Int) :
    s.objMul obj * (s.objMul obj * x) = x := by
  rcases objMul_eq_one_or s obj with h | h <;> rw [h] <;> ring

/-- Multiplying a successful `entryRow` output by the multipliers once more
(source line 130) yields the raw value vector of the underlying result. -/
theorem entryRow_adjusted (s : SearchResults) (objs : List String) (r : ResDict)
    (row : List Int) (h : SearchResults.entryRow s objs r = .ok row) :
    List.zipWith (fun obj v => s.objMul obj * v) objs row = rawKey objs r := by
  have hF := exceptMap_ok h
  clear h
  induction hF with
  | nil => rfl
  | @cons obj v objsT rowT hab hrest ihr =>
    cases hl : dictLookup r obj with
    | none => simp [hl] at hab
    | some w =>
      simp only [hl] at hab
      have hv : v = s.objMul obj * w := (Except.ok.inj hab).symm
      have hhead : s.objMul obj * v = (dictLookup r obj).getD 0 := by
        rw [hv, objMul_mul_cancel s obj w, hl]
        rfl
      show (fun obj v => s.objMul obj * v) obj v ::
          List.zipWith (fun obj v => s.objMul obj * v) objsT rowT
        = (dictLookup r obj).getD 0 :: rawKey objsT r
      exact congrArg₂ List.cons hhead ihr

/-- Zipping parallel lists of equal length and projecting the second
component recovers the second list. -/
theorem map_snd_zip_of_length {α β : Type} :
    ∀ (l₁ : List α) (l₂ : List β), l₁.length = l₂.length →
      (l₁.zip l₂).map (fun p => p.2) = l₂
  | [], [], _ => rfl
  | [], _ :: _, h => by simp at h
  | _ :: _, [], h => by simp at h
  | a :: l₁, b :: l₂, h => by
    simp only [List.zip_cons_cons, List.map_cons, List.cons.injEq, true_and]
    exact map_snd_zip_of_length l₁ l₂ (by simpa using h)

/-- A right element of a `Forall₂` pairing is related to some left element. -/
theorem forall₂_mem_right {α β : Type} {R : α → β → Prop} :
    ∀ {l : List α} {l' : List β}, List.Forall₂ R l l' → ∀ b ∈ l', ∃ a ∈ l, R a b := by
  intro l l' h
  induction h with
  | nil => intro b hb; simp at hb
  | cons hab hrest ih =>
    intro b hb
    rcases List.mem_cons.mp hb with h₁ | h₁
    · exact ⟨_, List.mem_cons_self _ _, h₁ ▸ hab⟩
    · rcases ih b h₁ with ⟨a, ha, hr⟩
      exact ⟨a, List.mem_cons_of_mem _ ha, hr⟩

/-- Transport a `Pairwise` property along a `Forall₂` pairing. -/
theorem pairwise_transfer {α β : Type} {T : α → β → Prop} {R : α → α → Prop}
    {S : β → β → Prop} (himp : ∀ a a' b b', T a b → T a' b' → R a a' → S b b') :
    ∀ {l : List α} {l' : List β}, List.Forall₂ T l l' → l.Pairwise R → l'.Pairwise S := by
  intro l l' hF
  induction hF with
  | nil => intro _; exact List.Pairwise.nil
  | cons hab hrest ih =>
    intro hP
    rcases List.pairwise_cons.mp hP with ⟨hhead, htail⟩
    refine List.Pairwise.cons ?_ (ih htail)
    intro b' hb'
    rcases forall₂_mem_right hrest b' hb' with ⟨a', ha', hT⟩
    exact himp _ _ _ _ hab hT (hhead a' ha')

/-- Strip a map on the left of a `Forall₂`. -/
theorem forall₂_map_left {α β γ : Type} {R : β → γ → Prop} (f : α → β) :
    ∀ {l : List α} {l' : List γ}, List.Forall₂ R (l.map f) l' →
      List.Forall₂ (fun a c => R (f a) c) l l' := by
  intro l
  induction l with
  | nil => intro l' h; cases h; exact .nil
  | cons a rest ih =>
    intro l' h
    cases h with
    | cons hab hrest => exact .cons hab (ih hrest)

/-- Conjoin a membership-derived property onto a `Forall₂`. -/
theorem forall₂_and_left {α β : Type} {R : α → β → Prop} {P : α → Prop} :
    ∀ {l : List α} {l' : List β}, List.Forall₂ R l l' → (∀ a ∈ l, P a) →
      List.Forall₂ (fun a b => R a b ∧ P a) l l' := by
  intro l l' h
  induction h with
  | nil => intro _; exact .nil
  | cons hab hrest ih =>
    intro hP
    exact .cons ⟨hab, hP _ (List.mem_cons_self _ _)⟩
      (ih (fun a ha => hP a (List.mem_cons_of_mem _ ha)))

/-- A successful per-hash map lookup means the dict holds the value. -/
theorem lookup_except_ok {α β : Type} [DecidableEq α] {d : Dict α β} {k : α} {b : β}
    (h : lookupOrKeyError d k = Except.ok b) : dictLookup d k = some b := by
  unfold lookupOrKeyError at h
  cases hl : dictLookup d k with
  | none => rw [hl] at h; exact absurd h (by simp)
  | some v =>
    rw [hl] at h
    simp only at h
    rw [Except.ok.inj h]

/-- A successful lookup comprehension pairs each key with its stored value. -/
theorem forall₂_lookup_of_exceptMap {α β : Type} [DecidableEq α] {d : Dict α β}
    {l : List α} {ys : List β}
    (h : exceptMap (lookupOrKeyError d) l = .ok ys) :
    List.Forall₂ (fun k v => dictLookup d k = some v) l ys := by
  have hF := exceptMap_ok h
  clear h
  induction hF with
  | nil => exact .nil
  | cons hab hrest ihr => exact .cons (lookup_except_ok hab) ihr

/-- A resolved explicit objectives list is returned unchanged. -/
theorem resolve_some_ok {s : SearchResults} {l objs : List String}
    (h : s.resolveObjectives (some l) = .ok objs) : objs = l := by
  simp only [SearchResults.resolveObjectives] at h
  by_cases hc : l.all (fun o => o ∈ s.objectives)
  · rw [if_pos hc] at h
    exact (Except.ok.inj h).symm
  · rw [if_neg hc] at h
    exact absurd h (by simp)

/-- Unpacking a successful `sortResultsTail` call: the filtered set was
non-empty and the three outputs are the lookups of the sorted hashes. -/
theorem sortResultsTail_ok (s : SearchResults) (objs : List String)
    (rows : List (List Int)) (hashes : List String)
    (mids : List (List String)) (sps : List SPDict) (ress : List ResDict)
    (h : SearchResults.sortResultsTail s objs (rows, hashes) = .ok (some (mids, sps, ress))) :
    rows ≠ []
    ∧ exceptMap (lookupOrKeyError s.model_ids)
        (SearchResults.sortedHashesOf s objs rows hashes) = .ok mids
    ∧ exceptMap (lookupOrKeyError s.results)
        (SearchResults.sortedHashesOf s objs rows hashes) = .ok ress
    ∧ exceptMap (lookupOrKeyError s.search_point_hash_table)
        (SearchResults.sortedHashesOf s objs rows hashes) = .ok sps := by
  by_cases hrows : rows = []
  · subst hrows
    simp [SearchResults.sortResultsTail, pure, Except.pure] at h
  · have hcond : ¬ ((rows, hashes).1 = []) := by simpa using hrows
    unfold SearchResults.sortResultsTail at h
    rw [if_neg hcond] at h
    simp only [Bind.bind] at h
    cases h₁ : exceptMap (lookupOrKeyError s.model_ids)
        (SearchResults.sortedHashesOf s objs (rows, hashes).1 (rows, hashes).2) with
    | error e =>
      rw [h₁] at h
      simp only [Except.bind] at h
      exact absurd h (by simp)
    | ok mids' =>
      rw [h₁] at h
      simp only [Except.bind] at h
      cases h₂ : exceptMap (lookupOrKeyError s.results)
          (SearchResults.sortedHashesOf s objs (rows, hashes).1 (rows, hashes).2) with
      | error e =>
        rw [h₂] at h
        simp only [Except.bind] at h
        exact absurd h (by simp)
      | ok ress' =>
        rw [h₂] at h
        simp only [Except.bind] at h
        cases h₃ : exceptMap (lookupOrKeyError s.search_point_hash_table)
            (SearchResults.sortedHashesOf s objs (rows, hashes).1 (rows, hashes).2) with
        | error e =>
          rw [h₃] at h
          simp only [Except.bind] at h
          exact absurd h (by simp)
        | ok sps' =>
          rw [h₃] at h
          simp only [Except.bind, pure, Except.pure, Except.ok.injEq, Option.some.injEq,
            Prod.mk.injEq] at h
          rcases h with ⟨hm, hsp, hr⟩
          subst hm
          subst hsp
          subst hr
          exact ⟨hrows, rfl, rfl, rfl⟩

/-- C2 amended: a successful `sort_search_points` returns the qualifying
entries reordered so that their raw objective-value vectors are in
lexicographic ascending order with the LAST selected objective as the primary
key and earlier objectives as successive tie-breakers (the two direction
multiplications — source lines 161 and 130 — cancel, so `higher_is_better`
has no effect on the order): the returned results are pairwise ordered under
`lexLe` on reversed raw vectors, the sorted hash sequence is a permutation of
the qualifying hashes, and the three returned sequences are its pointwise
lookups in the three maps. -/
theorem sort_search_points_lex_order (s : SearchResults) (oarg : Option (List String))
    (ag : Bool) (mids : List (List String)) (sps : List SPDict) (ress : List ResDict)
    (hnodup : (s.results.map Prod.fst).Nodup)
    (hok : s.sort_search_points oarg ag = .ok (some (mids, sps, ress))) :
    ∃ objs rows hashes,
      s.resolveObjectives oarg = .ok objs
      ∧ SearchResults.get_results_list s (some objs) ag = .ok (rows, hashes)
      ∧ List.Pairwise (fun r r' =>
          lexLe (rawKey objs r).reverse (rawKey objs r').reverse = true) ress
      ∧ (SearchResults.sortedHashesOf s objs rows hashes).Perm hashes
      ∧ List.Forall₂ (fun hh m => dictLookup s.model_ids hh = some m)
          (SearchResults.sortedHashesOf s objs rows hashes) mids
      ∧ List.Forall₂ (fun hh sp => dictLookup s.search_point_hash_table hh = some sp)
          (SearchResults.sortedHashesOf s objs rows hashes) sps
      ∧ List.Forall₂ (fun hh r => dictLookup s.results hh = some r)
          (SearchResults.sortedHashesOf s objs rows hashes) ress := by
  cases hres : s.resolveObjectives oarg with
  | error e =>
    unfold SearchResults.sort_search_points at hok
    rw [hres] at hok
    exact absurd hok (by simp [Bind.bind, Except.bind])
  | ok objs =>
    cases hgrl : SearchResults.get_results_list s (some objs) ag with
    | error e =>
      unfold SearchResults.sort_search_points at hok
      rw [hres] at hok
      simp only [Bind.bind, Except.bind] at hok
      rw [hgrl] at hok
      exact absurd hok (by simp)
    | ok pair =>
      rcases pair with ⟨rows, hashes⟩
      have htail : SearchResults.sortResultsTail s objs (rows, hashes)
          = .ok (some (mids, sps, ress)) := by
        unfold SearchResults.sort_search_points at hok
        rw [hres] at hok
        simp only [Bind.bind, Except.bind] at hok
        rw [hgrl] at hok
        exact hok
      rcases sortResultsTail_ok s objs rows hashes mids sps ress htail with ⟨-, hm, hr, hsp⟩
      have hFm := forall₂_lookup_of_exceptMap hm
      have hFr := forall₂_lookup_of_exceptMap hr
      have hFsp := forall₂_lookup_of_exceptMap hsp
      rcases get_results_list_ok s (some objs) ag hgrl with ⟨o', entries, hro, hent, hr1, hh1⟩
      have ho' : o' = objs := resolve_some_ok hro
      rw [ho'] at hent
      have hlen : rows.length = hashes.length := by
        rw [hr1, hh1]
        simp
      have hperm : (SearchResults.sortedHashesOf s objs rows hashes).Perm hashes := by
        have hp := (List.perm_insertionSort pairKeyLe
          ((rows.map (fun row => List.zipWith (fun obj v => s.objMul obj * v) objs row)).zip
            hashes)).map (fun p => p.2)
        rw [map_snd_zip_of_length _ _ (by simpa using hlen)] at hp
        exact hp
      have hSorted : List.Pairwise pairKeyLe (List.insertionSort pairKeyLe
          ((rows.map (fun row => List.zipWith (fun obj v => s.objMul obj * v) objs row)).zip
            hashes)) := List.sorted_insertionSort pairKeyLe _
      have hFr₀ : List.Forall₂ (fun k v => dictLookup s.results k = some v)
          ((List.insertionSort pairKeyLe
            ((rows.map (fun row => List.zipWith (fun obj v => s.objMul obj * v) objs row)).zip
              hashes)).map (fun p => p.2)) ress := hFr
      have hFr' : List.Forall₂ (fun (p : List Int × String) (r : ResDict) =>
          dictLookup s.results p.2 = some r)
          (List.insertionSort pairKeyLe
            ((rows.map (fun row => List.zipWith (fun obj v => s.objMul obj * v) objs row)).zip
              hashes)) ress :=
        forall₂_map_left (fun p : List Int × String => p.2) hFr₀
      have hgood : ∀ p ∈ List.insertionSort pairKeyLe
          ((rows.map (fun row => List.zipWith (fun obj v => s.objMul obj * v) objs row)).zip
            hashes), ∀ r, dictLookup s.results p.2 = some r → p.1 = rawKey objs r := by
        intro p hp r hlkp
        have hpz := (List.perm_insertionSort pairKeyLe _).mem_iff.mp hp
        rw [hr1, hh1, List.map_map, List.zip_map'] at hpz
        rcases List.mem_map.mp hpz with ⟨e, he, hpe⟩
        rcases resultsEntries_mem s objs ag hent e he with ⟨r₀, hmem₀, -, hrow₀⟩
        have hlk₀ : dictLookup s.results e.2 = some r₀ :=
          dictLookup_of_mem_nodup hnodup hmem₀
        have hp2 : p.2 = e.2 := by rw [← hpe]
        rw [hp2, hlk₀] at hlkp
        have hr₀ : r₀ = r := Option.some.inj hlkp
        subst hr₀
        have hp1 : p.1 = List.zipWith (fun obj v => s.objMul obj * v) objs e.1 := by
          rw [← hpe]
          rfl
        rw [hp1, entryRow_adjusted s objs r₀ e.1 hrow₀]
      have hT := forall₂_and_left hFr' hgood
      have himp : ∀ (p p' : List Int × String) (r r' : ResDict),
          (dictLookup s.results p.2 = some r ∧
            ∀ r₂, dictLookup s.results p.2 = some r₂ → p.1 = rawKey objs r₂) →
          (dictLookup s.results p'.2 = some r' ∧
            ∀ r₂, dictLookup s.results p'.2 = some r₂ → p'.1 = rawKey objs r₂) →
          pairKeyLe p p' →
          lexLe (rawKey objs r).reverse (rawKey objs r').reverse = true := by
        intro p p' r r' hTp hTp' hR
        have h1 : p.1 = rawKey objs r := hTp.2 r hTp.1
        have h2 : p'.1 = rawKey objs r' := hTp'.2 r' hTp'.1
        unfold pairKeyLe at hR
        rw [h1, h2] at hR
        exact hR
      have hPairwise := pairwise_transfer himp hT hSorted
      exact ⟨objs, rows, hashes, rfl, hgrl, hPairwise, hperm, hFm, hFsp, hFr⟩

/-- Witness for C2's amended theorem on the section-8 example store: the full
sort returns C, A, D, B — ascending by the raw latency column (the LAST
selected objective), not by accuracy. -/
theorem sort_search_points_lex_order_witness :
    ∃ objs rows hashes,
      exampleStore.resolveObjectives none = .ok objs
      ∧ SearchResults.get_results_list exampleStore (some objs) false = .ok (rows, hashes)
      ∧ List.Pairwise (fun r r' =>
          lexLe (rawKey objs r).reverse (rawKey objs r').reverse = true)
          [exampleRes 85 40, exampleRes 90 50, exampleRes 80 60, exampleRes 95 80]
      ∧ (SearchResults.sortedHashesOf exampleStore objs rows hashes).Perm hashes
      ∧ List.Forall₂ (fun hh m => dictLookup exampleStore.model_ids hh = some m)
          (SearchResults.sortedHashesOf exampleStore objs rows hashes)
          [["2_c"], ["0_a"], ["3_d"], ["1_b"]]
      ∧ List.Forall₂ (fun hh sp => dictLookup exampleStore.search_point_hash_table hh = some sp)
          (SearchResults.sortedHashesOf exampleStore objs rows hashes)
          [exampleSP 2, exampleSP 0, exampleSP 3, exampleSP 1]
      ∧ List.Forall₂ (fun hh r => dictLookup exampleStore.results hh = some r)
          (SearchResults.sortedHashesOf exampleStore objs rows hashes)
          [exampleRes 85 40, exampleRes 90 50, exampleRes 80 60, exampleRes 95 80] :=
  sort_search_points_lex_order exampleStore none false
    [["2_c"], ["0_a"], ["3_d"], ["1_b"]]
    [exampleSP 2, exampleSP 0, exampleSP 3, exampleSP 1]
    [exampleRes 85 40, exampleRes 90 50, exampleRes 80 60, exampleRes 95 80]
    (by decide) (by rfl)

/-- Objectives `a` (higher is better) and `b` (lower is better), no goals. -/
def mixedDirObjDict : Dict String ObjectiveSpec :=
  [("a", { higher_is_better := true, goal := none }),
   ("b", { higher_is_better := false, goal := none })]

/-- Two entries: e1 with a=0, b=1 (ids `0_x`); e2 with a=1, b=0 (ids `1_y`). -/
def mixedDirStore : SearchResults :=
  ((SearchResults.init mixedDirObjDict none).record (exampleSP 0) [("a", 0), ("b", 1)]
    ["0_x"]).record (exampleSP 1) [("a", 1), ("b", 0)] ["1_y"]

/-- C2 counterexample: the claim says the output is in lexicographic ascending
order of the direction-adjusted vectors with the FIRST selected objective as
the primary key.  Entry e1's adjusted vector is [0, -1] and e2's is [1, 0]
(second and third conjuncts, computed by the store's own `entryRow`), so the
claimed order puts e1 (ids `0_x`) first.  The code returns e2 (`1_y`) first —
and indeed [1, 0] is not first-key-lexicographically ≤ [0, -1] (last
conjunct) — because `np.lexsort` uses the LAST objective as the primary key
and the double direction-multiplication cancels the adjustment. -/
theorem sort_search_points_claim_false :
    mixedDirStore.sort_search_points none false
      = .ok (some ([["1_y"], ["0_x"]],
          [exampleSP 1, exampleSP 0],
          [[("a", (1 : Int)), ("b", 0)], [("a", 0), ("b", 1)]]))
    ∧ SearchResults.entryRow mixedDirStore ["a", "b"] [("a", 0), ("b", 1)] = .ok [0, -1]
    ∧ SearchResults.entryRow mixedDirStore ["a", "b"] [("a", 1), ("b", 0)] = .ok [1, 0]
    ∧ lexLe [(1 : Int), 0] [0, -1] = false := by
  refine ⟨by rfl, by rfl, by rfl, by rfl⟩
